import Mathlib

/-!
Shallow embedding of the gke-managed-certs controller core
(`pkg/controller/mcert_worker.go` and the ingress controller file).

Go maps and the identity store are modelled as association lists; the
provider (GCE SslCertificate API) is a map from resource name to resource;
the Kubernetes lister is a map from (namespace, name) to object.  Every
externally visible call (identity-store Get/Put, provider Get/Create,
Kubernetes Update, queue Forget/AddRateLimited/Done) is recorded in an
event trace so that ordering and counting properties can be stated.
`utils.RandomName` is not part of the translated sources; it is modelled
from the spec as an environment-supplied stream of candidate identifiers
(`genSupply`), consumed one index at a time, with `none` standing for a
failure of random-name generation.  Provider `Create` and Kubernetes
`Update` are modelled as succeeding (transient transport failures are the
environment's, not the controller's, behaviour); a freshly created
certificate reports status PROVISIONING as in the spec's scenario.
-/

/-- Go slice: `none` is the nil slice (serialized as JSON null), `some l`
a non-nil slice with elements `l`.  `var x []T` starts as `none`; `append`
on nil produces a non-nil slice. -/
abbrev GoSlice (α : Type) := Option (List α)

/-- Go `append` on a slice value. -/
def goAppend (s : GoSlice α) (x : α) : GoSlice α :=
  match s with
  | none => some [x]
  | some l => some (l ++ [x])

/-- Association-list lookup, first match wins (models map read / store Get). -/
def assocGet [DecidableEq κ] (l : List (κ × α)) (k : κ) : Option α :=
  match l with
  | [] => none
  | (k', v) :: rest => if k' = k then some v else assocGet rest k

/-- Association-list update (models map write / store Put): replaces the
first binding of the key, or appends a new binding. -/
def assocPut [DecidableEq κ] (l : List (κ × α)) (k : κ) (v : α) : List (κ × α) :=
  match l with
  | [] => [(k, v)]
  | (k', w) :: rest => if k' = k then (k', v) :: rest else (k', w) :: assocPut rest k v

/-- Per-domain status entry of a ManagedCertificate status
(`api.DomainStatus`). -/
structure DomainStatus where
  domain : String
  status : String
deriving DecidableEq, Repr

/-- `api.ManagedCertificateStatus`. -/
structure McertStatus where
  certificateName : String
  certificateStatus : String
  domainStatus : GoSlice DomainStatus
  expireTime : String
deriving DecidableEq, Repr

/-- `api.ManagedCertificate`: `ns` is `ObjectMeta.Namespace`, `name` is
`ObjectMeta.Name`, `domains` is `Spec.Domains`. -/
structure Mcert where
  ns : String
  name : String
  domains : List String
  status : McertStatus
deriving DecidableEq, Repr

/-- `compute.SslCertificateManagedSslCertificate`: overall status plus the
per-domain status map (modelled as an association list). -/
structure SslManaged where
  status : String
  domainStatus : List (String × String)
deriving DecidableEq, Repr

/-- `compute.SslCertificate` as the controller reads it. -/
structure SslCert where
  name : String
  domains : List String
  managed : SslManaged
deriving DecidableEq, Repr

/-- One externally visible call made by the Mcert reconciler. -/
inductive Event where
  | storeGet (key : String)
  | storePut (key value : String)
  | sslGet (name : String)
  | sslCreate (name : String) (domains : List String)
  | update (ns name : String)
deriving DecidableEq, Repr

/-- Is this event a provider-resource Create call? -/
def Event.isCreate : Event → Bool
  | .sslCreate _ _ => true
  | _ => false

/-- Is this event an Identity Store Put call? -/
def Event.isPut : Event → Bool
  | .storePut _ _ => true
  | _ => false

/-- Is this event a Kubernetes status Update call? -/
def Event.isUpdate : Event → Bool
  | .update _ _ => true
  | _ => false

/-- Does this event, when it is an Identity Store operation, use key `n`?
Non-store events satisfy it vacuously. -/
def Event.storeKeyMatches : Event → String → Bool
  | .storeGet k, n => k == n
  | .storePut k _, n => k == n
  | _, _ => true

/-- World state threaded through the Mcert reconciler: the Identity Store
(`c.state`), the provider's resources (`c.sslClient`), the lister / cluster
contents (`c.lister`, written back by `Update`), and the random-name
supply with its consumption counter (modelling `utils.RandomName`). -/
structure St where
  idStore : List (String × String)
  provider : List (String × SslCert)
  mcerts : List ((String × String) × Mcert)
  genSupply : Nat → Option String
  genCounter : Nat

/-- `Except` result is an error? -/
def isErr : Except String α → Bool
  | .error _ => true
  | .ok _ => false

instance [DecidableEq ε] [DecidableEq α] : DecidableEq (Except ε α) := fun x y =>
  match x, y with
  | .error a, .error b =>
    if h : a = b then .isTrue (by rw [h]) else .isFalse (by intro hc; cases hc; exact h rfl)
  | .error _, .ok _ => .isFalse (by intro hc; cases hc)
  | .ok _, .error _ => .isFalse (by intro hc; cases hc)
  | .ok a, .ok b =>
    if h : a = b then .isTrue (by rw [h]) else .isFalse (by intro hc; cases hc; exact h rfl)

/- Status vocabulary constants from the source. -/

def sslActive : String := "ACTIVE"
def sslFailedNotVisible : String := "FAILED_NOT_VISIBLE"
def sslFailedCaaChecking : String := "FAILED_CAA_CHECKING"
def sslFailedCaaForbidden : String := "FAILED_CAA_FORBIDDEN"
def sslFailedRateLimited : String := "FAILED_RATE_LIMITED"
def sslManagedCertificateStatusUnspecified : String := "MANAGED_CERTIFICATE_STATUS_UNSPECIFIED"
def sslProvisioning : String := "PROVISIONING"
def sslProvisioningFailed : String := "PROVISIONING_FAILED"
def sslProvisioningFailedPermanently : String := "PROVISIONING_FAILED_PERMANENTLY"
def sslRenewalFailed : String := "RENEWAL_FAILED"

/-- `translateDomainStatus` from mcert_worker.go: the per-domain status
switch (a Go switch on string equality, default is a hard error). -/
def translateDomainStatus (status : String) : Except String String :=
  if status = sslProvisioning then .ok "Provisioning"
  else if status = sslFailedNotVisible then .ok "FailedNotVisible"
  else if status = sslFailedCaaChecking then .ok "FailedCaaChecking"
  else if status = sslFailedCaaForbidden then .ok "FailedCaaForbidden"
  else if status = sslFailedRateLimited then .ok "FailedRateLimited"
  else if status = sslActive then .ok "Active"
  else .error ("Unexpected status " ++ status)

/-- The overall-status switch inlined in `updateStatus` (lines 73-88 of
mcert_worker.go), factored as a function: same cases, same order, default
is a hard error. -/
def translateCertificateStatus (status : String) : Except String String :=
  if status = sslActive then .ok "Active"
  else if status = sslManagedCertificateStatusUnspecified then .ok ""
  else if status = "" then .ok ""
  else if status = sslProvisioning then .ok "Provisioning"
  else if status = sslProvisioningFailed then .ok "ProvisioningFailed"
  else if status = sslProvisioningFailedPermanently then .ok "ProvisioningFailedPermanently"
  else if status = sslRenewalFailed then .ok "RenewalFailed"
  else .error ("Unexpected status " ++ status)

/-- The `for domain, status := range sslCert.Managed.DomainStatus` loop of
`updateStatus`: translates each entry, aborting on the first error, and
builds the Go slice `domainStatus` by `append` starting from the nil
slice. -/
def translateDomainStatuses : List (String × String) → GoSlice DomainStatus →
    Except String (GoSlice DomainStatus)
  | [], acc => .ok acc
  | (domain, status) :: rest, acc =>
    match translateDomainStatus status with
    | .error e => .error e
    | .ok t => translateDomainStatuses rest (goAppend acc { domain := domain, status := t })

example : translateDomainStatus "ACTIVE" = .ok "Active" := by decide
example : isErr (translateCertificateStatus "unexpected") = true := by decide
example : translateDomainStatuses [] none = .ok none := by decide
example : translateDomainStatuses [("example.com", "ACTIVE")] none =
    .ok (some [{ domain := "example.com", status := "Active" }]) := by decide

/-- Splitting a char list at a separator character: models Go
`strings.Split` (no trimming, no dropping of empty segments; an empty
input yields a single empty segment). -/
def splitChar (sep : Char) (cur : List Char) : List Char → List (List Char)
  | [] => [cur.reverse]
  | c :: rest => if c = sep then cur.reverse :: splitChar sep [] rest else splitChar sep (c :: cur) rest

/-- Go `strings.Split(s, sep)` for a one-character separator, as strings. -/
def stringsSplit (s : String) (sep : Char) : List String :=
  (splitChar sep [] s.data).map List.asString

/-- `cache.SplitMetaNamespaceKey` from client-go: split on "/"; one part
means cluster-scoped (empty namespace), two parts means namespace/name,
anything else is an error. -/
def splitMetaNamespaceKey (key : String) : Except String (String × String) :=
  match stringsSplit key '/' with
  | [name] => .ok ("", name)
  | [ns, name] => .ok (ns, name)
  | _ => .error ("unexpected key format: " ++ key)

example : splitMetaNamespaceKey "ns/foo" = .ok ("ns", "foo") := by decide
example : splitMetaNamespaceKey "" = .ok ("", "") := by decide
example : splitMetaNamespaceKey "a/b/c" = .error "unexpected key format: a/b/c" := by decide

/-- `randomName` from mcert_worker.go: draw a candidate from
`utils.RandomName` (modelled as the supply at the current counter), probe
the provider for it with `sslClient.Get`; on collision draw exactly one
replacement, which is returned without a second probe.  Errors arise only
from the random-name supply. -/
def randomName (s : St) : Except String String × St × List Event :=
  match s.genSupply s.genCounter with
  | none => (.error "RandomName failed", { s with genCounter := s.genCounter + 1 }, [])
  | some n1 =>
    match assocGet s.provider n1 with
    | some _ =>
      match s.genSupply (s.genCounter + 1) with
      | none => (.error "RandomName failed", { s with genCounter := s.genCounter + 2 }, [Event.sslGet n1])
      | some n2 => (.ok n2, { s with genCounter := s.genCounter + 2 }, [Event.sslGet n1])
    | none => (.ok n1, { s with genCounter := s.genCounter + 1 }, [Event.sslGet n1])

/-- The shared branch of `createSslCertificateNameIfNeeded` taken when the
Identity Store has no usable entry: generate a name and `Put` it. -/
def generateAndPut (s : St) (name : String) : Except String String × St × List Event :=
  match randomName s with
  | (.error e, s1, ev) => (.error e, s1, ev)
  | (.ok ssl, s1, ev) =>
    (.ok ssl, { s1 with idStore := assocPut s1.idStore name ssl },
      ev ++ [Event.storePut name ssl])

/-- `createSslCertificateNameIfNeeded` from mcert_worker.go: reuse the
stored provider name when present and non-empty, otherwise generate a new
one and `Put` it before returning. -/
def createSslCertificateNameIfNeeded (s : St) (name : String) :
    Except String String × St × List Event :=
  match assocGet s.idStore name with
  | some v =>
    if v = "" then
      let r := generateAndPut s name
      (r.1, r.2.1, Event.storeGet name :: r.2.2)
    else (.ok v, s, [Event.storeGet name])
  | none =>
    let r := generateAndPut s name
    (r.1, r.2.1, Event.storeGet name :: r.2.2)

/-- The provider resource as it exists right after `Create(name, domains)`:
the provider reports PROVISIONING for a fresh certificate (spec scenario). -/
def newSslCert (name : String) (domains : List String) : SslCert :=
  { name := name, domains := domains,
    managed := { status := sslProvisioning, domainStatus := [] } }

/-- `createSslCertificateIfNeeded` from mcert_worker.go: probe the provider
with `Get`; on any `Get` error (not found) create the resource with the
ManagedCertificate's domains. -/
def createSslCertificateIfNeeded (s : St) (sslCertificateName : String) (mcert : Mcert) :
    Except String Unit × St × List Event :=
  match assocGet s.provider sslCertificateName with
  | some _ => (.ok (), s, [Event.sslGet sslCertificateName])
  | none =>
    let created := newSslCert sslCertificateName mcert.domains
    (.ok (), { s with provider := assocPut s.provider sslCertificateName created },
      [Event.sslGet sslCertificateName, Event.sslCreate sslCertificateName mcert.domains])

/-- `updateStatus` from mcert_worker.go: read the Identity Store entry for
the object's name (absence is an error), fetch the provider resource,
translate the overall status (assigned onto the object in place), translate
each per-domain status into a Go slice built from nil by append, set
`certificateName`, then issue the Kubernetes `Update`.  The in-place
mutations persist in the lister cache exactly as far as the Go code got
before an error. -/
def updateStatus (s : St) (mcert : Mcert) : Except String Unit × St × List Event :=
  match assocGet s.idStore mcert.name with
  | none => (.error ("Failed to find in state Managed Certificate " ++ mcert.name), s,
      [Event.storeGet mcert.name])
  | some sslCertificateName =>
    match assocGet s.provider sslCertificateName with
    | none => (.error "SslCertificate not found", s,
        [Event.storeGet mcert.name, Event.sslGet sslCertificateName])
    | some sslCert =>
      match translateCertificateStatus sslCert.managed.status with
      | .error e => (.error e, s, [Event.storeGet mcert.name, Event.sslGet sslCertificateName])
      | .ok certStatus =>
        let mcert1 := { mcert with status := { mcert.status with certificateStatus := certStatus } }
        match translateDomainStatuses sslCert.managed.domainStatus none with
        | .error e =>
          (.error e, { s with mcerts := assocPut s.mcerts (mcert1.ns, mcert1.name) mcert1 },
            [Event.storeGet mcert.name, Event.sslGet sslCertificateName])
        | .ok ds =>
          let mcert2 := { mcert1 with status := { mcert1.status with
            domainStatus := ds, certificateName := sslCert.name } }
          (.ok (), { s with mcerts := assocPut s.mcerts (mcert2.ns, mcert2.name) mcert2 },
            [Event.storeGet mcert.name, Event.sslGet sslCertificateName,
             Event.update mcert2.ns mcert2.name])

/-- `handleMcert` from mcert_worker.go: decode the key, fetch the
ManagedCertificate from the lister, ensure the identity mapping, ensure the
provider resource, refresh the status.  Any step's error aborts the rest. -/
def handleMcert (s : St) (key : String) : Except String Unit × St × List Event :=
  match splitMetaNamespaceKey key with
  | .error e => (.error e, s, [])
  | .ok (ns, name) =>
    match assocGet s.mcerts (ns, name) with
    | none => (.error ("ManagedCertificate not found: " ++ ns ++ "/" ++ name), s, [])
    | some mcert =>
      match createSslCertificateNameIfNeeded s name with
      | (.error e, s1, ev1) => (.error e, s1, ev1)
      | (.ok sslCertificateName, s1, ev1) =>
        match createSslCertificateIfNeeded s1 sslCertificateName mcert with
        | (.error e, s2, ev2) => (.error e, s2, ev1 ++ ev2)
        | (.ok _, s2, ev2) =>
          match updateStatus s2 mcert with
          | (r, s3, ev3) => (r, s3, ev1 ++ ev2 ++ ev3)

/-- One externally visible call made by the Ingress reconciler. -/
inductive IngEvent where
  | lookup (ns name : String)
  | handleError
  | enqueue (ns name : String)
deriving DecidableEq, Repr

/-- Is this event an enqueue into the Mcert queue?  Returns the enqueued
(namespace, name). -/
def IngEvent.enqueueOf : IngEvent → Option (String × String)
  | .enqueue ns name => some (ns, name)
  | _ => none

/-- An Ingress object as the controller reads it: only its annotations. -/
structure Ingress where
  annotations : List (String × String)
deriving DecidableEq, Repr

/-- State read by the Ingress reconciler: the Ingress objects and the
ManagedCertificate lister shared with the Mcert controller. -/
structure IngSt where
  ingresses : List ((String × String) × Ingress)
  mcerts : List ((String × String) × Mcert)

/-- The annotation key `cloud.google.com/managed-certificates`. -/
def annotationKey : String := "cloud.google.com/managed-certificates"

/-- `parseAnnotation` from the ingress controller file: empty value gives
an empty list, otherwise Go `strings.Split` on ",", with no trimming and
no filtering of empty segments. -/
def parseAnnotationNames (annotationValue : String) : List String :=
  if annotationValue = "" then []
  else stringsSplit annotationValue ','

/-- The `for _, name := range parseAnnotation(...)` loop of
`handleIngress`: look up each name in the Ingress's namespace; a failed
lookup is reported (runtime.HandleError) and skipped, a successful one is
enqueued (by the ManagedCertificate's own key). -/
def ingressLoop (s : IngSt) (ns : String) : List String → List IngEvent
  | [] => []
  | name :: rest =>
    IngEvent.lookup ns name ::
      match assocGet s.mcerts (ns, name) with
      | none => IngEvent.handleError :: ingressLoop s ns rest
      | some mcert => IngEvent.enqueue mcert.ns mcert.name :: ingressLoop s ns rest

/-- `handleIngress` from the ingress controller file: decode the key, fetch
the Ingress, read the annotation (absent means done), then run the lookup
loop.  The loop never aborts; after it the function returns nil. -/
def handleIngress (s : IngSt) (key : String) : Except String Unit × List IngEvent :=
  match splitMetaNamespaceKey key with
  | .error e => (.error e, [])
  | .ok (ns, name) =>
    match assocGet s.ingresses (ns, name) with
    | none => (.error ("Ingress not found: " ++ ns ++ "/" ++ name), [])
    | some ing =>
      match assocGet ing.annotations annotationKey with
      | none => (.ok (), [])
      | some annotationValue => (.ok (), ingressLoop s ns (parseAnnotationNames annotationValue))

/-- An item pulled from a work queue: a string key, or something that is
not a string (the failed type assertion case). -/
inductive QObj where
  | str (key : String)
  | nonStr
deriving DecidableEq, Repr

/-- Queue bookkeeping calls made while processing one item. -/
inductive QEvent where
  | forget
  | addRateLimited
  | done
deriving DecidableEq, Repr

/-- `processNext` from mcert_worker.go, processing one dequeued item.  The
type-assertion failure branch calls `Forget` but does NOT return: `key`
keeps its zero value "" and `handleMcert` runs on it; its error triggers
`AddRateLimited`.  The unconditional `Forget` and the deferred `Done`
follow.  Events are listed in call order. -/
def processNext (s : St) (obj : QObj) : St × List QEvent :=
  match obj with
  | .str key =>
    let r := handleMcert s key
    match r.1 with
    | .error _ => (r.2.1, [QEvent.addRateLimited, QEvent.forget, QEvent.done])
    | .ok _ => (r.2.1, [QEvent.forget, QEvent.done])
  | .nonStr =>
    let r := handleMcert s ""
    match r.1 with
    | .error _ => (r.2.1, [QEvent.forget, QEvent.addRateLimited, QEvent.forget, QEvent.done])
    | .ok _ => (r.2.1, [QEvent.forget, QEvent.forget, QEvent.done])

/-- `processNextIngress` from the ingress controller file, processing one
dequeued item.  There the type-assertion failure branch returns right after
`Forget`: `handleIngress` is never called and the item is not re-enqueued.
Events are listed in call order (`Done` is deferred to the end). -/
def processNextIngress (s : IngSt) (obj : QObj) : List QEvent :=
  match obj with
  | .nonStr => [QEvent.forget, QEvent.done]
  | .str key =>
    match (handleIngress s key).1 with
    | .error _ => [QEvent.addRateLimited, QEvent.done]
    | .ok _ => [QEvent.forget, QEvent.done]

example : parseAnnotationNames "" = [] := by decide
example : parseAnnotationNames "a,b" = ["a", "b"] := by decide
example : parseAnnotationNames "a," = ["a", ""] := by decide
example : parseAnnotationNames "a,,b" = ["a", "", "b"] := by decide

theorem assocGet_assocPut_self [DecidableEq κ] (l : List (κ × α)) (k : κ) (v : α) :
    assocGet (assocPut l k v) k = some v := by
  induction l with
  | nil => simp [assocGet, assocPut]
  | cons p rest ih =>
    obtain ⟨k', w⟩ := p
    by_cases h : k' = k
    · simp [assocGet, assocPut, h]
    · simp [assocGet, assocPut, h, ih]

theorem assocGet_assocPut_ne [DecidableEq κ] (l : List (κ × α)) (k k' : κ) (v : α)
    (h : k' ≠ k) : assocGet (assocPut l k v) k' = assocGet l k' := by
  have h' : k ≠ k' := Ne.symm h
  induction l with
  | nil => simp [assocGet, assocPut, h']
  | cons p rest ih =>
    obtain ⟨k'', w⟩ := p
    by_cases hk : k'' = k
    · subst hk
      simp [assocGet, assocPut, h']
    · simp [assocGet, assocPut, hk, ih]

theorem assocGet_isSome_assocPut [DecidableEq κ] (l : List (κ × α)) (k k' : κ) (v : α)
    (h : (assocGet l k').isSome) : (assocGet (assocPut l k v) k').isSome := by
  by_cases hk : k' = k
  · subst hk
    simp [assocGet_assocPut_self]
  · rw [assocGet_assocPut_ne l k k' v hk]
    exact h

/-- `updateStatus` touches neither the Identity Store, nor the provider,
nor the name supply; it never issues a Put or a Create; its store
operations are all keyed by the object's own name; and it never removes a
lister entry. -/
theorem updateStatus_post (s : St) (m : Mcert) :
    (updateStatus s m).2.1.idStore = s.idStore ∧
    (updateStatus s m).2.1.provider = s.provider ∧
    (updateStatus s m).2.1.genSupply = s.genSupply ∧
    (updateStatus s m).2.1.genCounter = s.genCounter ∧
    (updateStatus s m).2.2.countP (fun e => Event.isCreate e) = 0 ∧
    (updateStatus s m).2.2.countP (fun e => Event.isPut e) = 0 ∧
    ((updateStatus s m).2.2.all (fun e => Event.storeKeyMatches e m.name)) = true ∧
    (∀ a b, (assocGet s.mcerts (a, b)).isSome →
      (assocGet (updateStatus s m).2.1.mcerts (a, b)).isSome) := by
  unfold updateStatus
  split
  · simp [List.countP, List.countP.go, Event.isCreate, Event.isPut, Event.storeKeyMatches]
  · split
    · simp [List.countP, List.countP.go, Event.isCreate, Event.isPut, Event.storeKeyMatches]
    · split
      · simp [List.countP, List.countP.go, Event.isCreate, Event.isPut, Event.storeKeyMatches]
      · split
        · refine ⟨rfl, rfl, rfl, rfl, ?_, ?_, ?_, ?_⟩
          · simp [List.countP, List.countP.go, Event.isCreate]
          · simp [List.countP, List.countP.go, Event.isPut]
          · simp [Event.storeKeyMatches]
          · intro a b h
            exact assocGet_isSome_assocPut _ _ _ _ h
        · refine ⟨rfl, rfl, rfl, rfl, ?_, ?_, ?_, ?_⟩
          · simp [List.countP, List.countP.go, Event.isCreate]
          · simp [List.countP, List.countP.go, Event.isPut]
          · simp [Event.storeKeyMatches]
          · intro a b h
            exact assocGet_isSome_assocPut _ _ _ _ h


/-- `randomName` touches only the supply counter, makes no store call and
no Create, and an ok result is one of the two candidates drawn from the
supply. -/
theorem randomName_post (s : St) :
    (randomName s).2.1.idStore = s.idStore ∧
    (randomName s).2.1.provider = s.provider ∧
    (randomName s).2.1.mcerts = s.mcerts ∧
    (randomName s).2.1.genSupply = s.genSupply ∧
    (randomName s).2.2.countP (fun e => Event.isCreate e) = 0 ∧
    (randomName s).2.2.countP (fun e => Event.isPut e) = 0 ∧
    (∀ n, ((randomName s).2.2.all (fun e => Event.storeKeyMatches e n)) = true) ∧
    (∀ nm, (randomName s).1 = .ok nm →
      s.genSupply s.genCounter = some nm ∨ s.genSupply (s.genCounter + 1) = some nm) := by
  unfold randomName
  cases hg1 : s.genSupply s.genCounter with
  | none => simp [List.countP, List.countP.go]
  | some n1 =>
    dsimp only
    cases hc : assocGet s.provider n1 with
    | none =>
      dsimp only
      refine ⟨rfl, rfl, rfl, rfl, ?_, ?_, ?_, ?_⟩
      · simp [List.countP, List.countP.go, Event.isCreate]
      · simp [List.countP, List.countP.go, Event.isPut]
      · intro n
        simp [Event.storeKeyMatches]
      · intro nm h
        left
        cases h
        rfl
    | some c =>
      dsimp only
      cases hg2 : s.genSupply (s.genCounter + 1) with
      | none =>
        dsimp only
        refine ⟨rfl, rfl, rfl, rfl, ?_, ?_, ?_, ?_⟩
        · simp [List.countP, List.countP.go, Event.isCreate]
        · simp [List.countP, List.countP.go, Event.isPut]
        · intro n
          simp [Event.storeKeyMatches]
        · intro nm h
          cases h
      | some n2 =>
        dsimp only
        refine ⟨rfl, rfl, rfl, rfl, ?_, ?_, ?_, ?_⟩
        · simp [List.countP, List.countP.go, Event.isCreate]
        · simp [List.countP, List.countP.go, Event.isPut]
        · intro n
          simp [Event.storeKeyMatches]
        · intro nm h
          right
          cases h
          rfl

/-- `generateAndPut` leaves provider, lister and supply untouched, issues
no Create, keys all store operations by the ManagedCertificate name, and
on success the Identity Store maps the name to the returned provider name,
which came from the supply. -/
theorem generateAndPut_post (s : St) (name : String) :
    (generateAndPut s name).2.1.provider = s.provider ∧
    (generateAndPut s name).2.1.mcerts = s.mcerts ∧
    (generateAndPut s name).2.1.genSupply = s.genSupply ∧
    (generateAndPut s name).2.2.countP (fun e => Event.isCreate e) = 0 ∧
    ((generateAndPut s name).2.2.all (fun e => Event.storeKeyMatches e name)) = true ∧
    (∀ ssl, (generateAndPut s name).1 = .ok ssl →
      assocGet (generateAndPut s name).2.1.idStore name = some ssl ∧
      (s.genSupply s.genCounter = some ssl ∨ s.genSupply (s.genCounter + 1) = some ssl)) := by
  have hp := randomName_post s
  unfold generateAndPut
  rcases hr : randomName s with ⟨res, s1, ev⟩
  rw [hr] at hp
  dsimp only at hp
  obtain ⟨hp1, hp2, hp3, hp4, hp5, hp6, hp7, hp8⟩ := hp
  cases res with
  | error e =>
    dsimp only
    refine ⟨hp2, hp3, hp4, hp5, hp7 name, ?_⟩
    intro ssl h
    cases h
  | ok ssl0 =>
    dsimp only
    refine ⟨hp2, hp3, hp4, ?_, ?_, ?_⟩
    · rw [List.countP_append, hp5]
      simp [List.countP_cons, List.countP_nil, Event.isCreate]
    · have h7 := hp7 name
      simp only [List.all_eq_true] at h7
      simp only [List.all_eq_true, List.mem_append, List.mem_singleton]
      intro x hx
      rcases hx with hx | hx
      · exact h7 x hx
      · subst hx
        simp [Event.storeKeyMatches]
    · intro ssl h
      cases h
      constructor
      · exact assocGet_assocPut_self _ _ _
      · exact hp8 ssl0 rfl

/-- When the Identity Store already holds a non-empty provider name, the
name-ensuring step reuses it and changes nothing. -/
theorem createName_reuse (s : St) (name ssl : String)
    (h : assocGet s.idStore name = some ssl) (hne : ssl ≠ "") :
    createSslCertificateNameIfNeeded s name = (.ok ssl, s, [Event.storeGet name]) := by
  unfold createSslCertificateNameIfNeeded
  rw [h]
  dsimp only
  rw [if_neg hne]

/-- `createSslCertificateNameIfNeeded` leaves provider, lister and supply
untouched, issues no Create, keys all store operations by the
ManagedCertificate name, and on success the Identity Store maps the name to
the returned provider name, which is non-empty provided the supply never
yields the empty string. -/
theorem createName_post (s : St) (name : String) :
    (createSslCertificateNameIfNeeded s name).2.1.provider = s.provider ∧
    (createSslCertificateNameIfNeeded s name).2.1.mcerts = s.mcerts ∧
    (createSslCertificateNameIfNeeded s name).2.1.genSupply = s.genSupply ∧
    (createSslCertificateNameIfNeeded s name).2.2.countP (fun e => Event.isCreate e) = 0 ∧
    ((createSslCertificateNameIfNeeded s name).2.2.all
      (fun e => Event.storeKeyMatches e name)) = true ∧
    (∀ ssl, (createSslCertificateNameIfNeeded s name).1 = .ok ssl →
      assocGet (createSslCertificateNameIfNeeded s name).2.1.idStore name = some ssl ∧
      ((∀ i, s.genSupply i ≠ some "") → ssl ≠ "")) := by
  have hg := generateAndPut_post s name
  obtain ⟨hg1, hg2, hg3, hg4, hg5, hg6⟩ := hg
  unfold createSslCertificateNameIfNeeded
  cases hv : assocGet s.idStore name with
  | none =>
    dsimp only
    refine ⟨hg1, hg2, hg3, ?_, ?_, ?_⟩
    · rw [List.countP_cons_of_neg]
      · exact hg4
      · simp [Event.isCreate]
    · have h5 := hg5
      simp only [List.all_eq_true] at h5
      simp only [List.all_cons, Bool.and_eq_true, List.all_eq_true]
      exact ⟨by simp [Event.storeKeyMatches], h5⟩
    · intro ssl h
      obtain ⟨ha, hb⟩ := hg6 ssl h
      refine ⟨ha, ?_⟩
      intro hne
      rcases hb with hb | hb
      · intro hcon
        exact hne _ (hcon ▸ hb)
      · intro hcon
        exact hne _ (hcon ▸ hb)
  | some v =>
    dsimp only
    by_cases hvv : v = ""
    · rw [if_pos hvv]
      dsimp only
      refine ⟨hg1, hg2, hg3, ?_, ?_, ?_⟩
      · rw [List.countP_cons_of_neg]
        · exact hg4
        · simp [Event.isCreate]
      · have h5 := hg5
        simp only [List.all_eq_true] at h5
        simp only [List.all_cons, Bool.and_eq_true, List.all_eq_true]
        exact ⟨by simp [Event.storeKeyMatches], h5⟩
      · intro ssl h
        obtain ⟨ha, hb⟩ := hg6 ssl h
        refine ⟨ha, ?_⟩
        intro hne
        rcases hb with hb | hb
        · intro hcon
          exact hne _ (hcon ▸ hb)
        · intro hcon
          exact hne _ (hcon ▸ hb)
    · rw [if_neg hvv]
      dsimp only
      refine ⟨rfl, rfl, rfl, ?_, ?_, ?_⟩
      · simp [List.countP, List.countP.go, Event.isCreate]
      · simp [Event.storeKeyMatches]
      · intro ssl h
        cases h
        exact ⟨hv, fun _ => hvv⟩

/-- `createSslCertificateIfNeeded` always succeeds in the no-transport-
failure model, touches only the provider, afterwards the provider holds the
resource, it issues no Put, and it issues no Create when the resource
already existed. -/
theorem createSslCertificateIfNeeded_post (s : St) (ssl : String) (m : Mcert) :
    (createSslCertificateIfNeeded s ssl m).1 = .ok () ∧
    (createSslCertificateIfNeeded s ssl m).2.1.idStore = s.idStore ∧
    (createSslCertificateIfNeeded s ssl m).2.1.mcerts = s.mcerts ∧
    (createSslCertificateIfNeeded s ssl m).2.1.genSupply = s.genSupply ∧
    (createSslCertificateIfNeeded s ssl m).2.1.genCounter = s.genCounter ∧
    (assocGet (createSslCertificateIfNeeded s ssl m).2.1.provider ssl).isSome = true ∧
    (createSslCertificateIfNeeded s ssl m).2.2.countP (fun e => Event.isPut e) = 0 ∧
    (∀ n, ((createSslCertificateIfNeeded s ssl m).2.2.all
      (fun e => Event.storeKeyMatches e n)) = true) ∧
    ((assocGet s.provider ssl).isSome = true →
      (createSslCertificateIfNeeded s ssl m).2.2.countP (fun e => Event.isCreate e) = 0) := by
  unfold createSslCertificateIfNeeded
  cases hc : assocGet s.provider ssl with
  | some c =>
    dsimp only
    refine ⟨rfl, rfl, rfl, rfl, rfl, ?_, ?_, ?_, ?_⟩
    · simp [hc]
    · simp [List.countP, List.countP.go, Event.isPut]
    · intro n
      simp [Event.storeKeyMatches]
    · intro _
      simp [List.countP, List.countP.go, Event.isCreate]
  | none =>
    dsimp only
    refine ⟨rfl, rfl, rfl, rfl, rfl, ?_, ?_, ?_, ?_⟩
    · simp [assocGet_assocPut_self]
    · simp [List.countP, List.countP.go, Event.isPut]
    · intro n
      simp [Event.storeKeyMatches]
    · intro h
      simp at h

/-- After a successful `handleMcert`, the Identity Store maps the
ManagedCertificate's name to a non-empty provider name, the provider holds
that resource, and the lister still has the object (assuming the name
supply never yields the empty string, as `utils.RandomName` produces
identifiers). -/
theorem handleMcert_ok_state (s : St) (key : String)
    (hgen : ∀ i, s.genSupply i ≠ some "")
    (h1 : (handleMcert s key).1 = .ok ()) :
    ∃ ns name ssl,
      splitMetaNamespaceKey key = .ok (ns, name) ∧
      assocGet (handleMcert s key).2.1.idStore name = some ssl ∧
      ssl ≠ "" ∧
      (assocGet (handleMcert s key).2.1.provider ssl).isSome = true ∧
      (assocGet (handleMcert s key).2.1.mcerts (ns, name)).isSome = true := by
  unfold handleMcert at h1 ⊢
  cases hsplit : splitMetaNamespaceKey key with
  | error e =>
    rw [hsplit] at h1
    dsimp only at h1
    exact Except.noConfusion h1
  | ok p =>
    obtain ⟨ns, name⟩ := p
    rw [hsplit] at h1
    dsimp only at h1
    dsimp only
    cases hmc : assocGet s.mcerts (ns, name) with
    | none =>
      rw [hmc] at h1
      dsimp only at h1
      exact Except.noConfusion h1
    | some mcert =>
      rw [hmc] at h1
      dsimp only at h1
      dsimp only
      rcases hcn : createSslCertificateNameIfNeeded s name with ⟨res1, s1, ev1⟩
      rw [hcn] at h1
      have hA := createName_post s name
      rw [hcn] at hA
      dsimp only at hA
      cases res1 with
      | error e =>
        dsimp only at h1
        exact Except.noConfusion h1
      | ok ssl =>
        dsimp only at h1
        dsimp only
        obtain ⟨hA1, hA2, hA3, hA4, hA5, hA6⟩ := hA
        obtain ⟨hAid, hAne⟩ := hA6 ssl rfl
        rcases hci : createSslCertificateIfNeeded s1 ssl mcert with ⟨res2, s2, ev2⟩
        rw [hci] at h1
        have hB := createSslCertificateIfNeeded_post s1 ssl mcert
        rw [hci] at hB
        dsimp only at hB
        obtain ⟨hB1, hB2, hB3, hB4, hB5, hB6, hB7, hB8, hB9⟩ := hB
        cases hB1
        dsimp only at h1
        dsimp only
        rcases hup : updateStatus s2 mcert with ⟨r3, s3, ev3⟩
        rw [hup] at h1
        have hC := updateStatus_post s2 mcert
        rw [hup] at hC
        dsimp only at hC
        obtain ⟨hC1, hC2, hC3, hC4, hC5, hC6, hC7, hC8⟩ := hC
        refine ⟨ns, name, ssl, rfl, ?_, hAne hgen, ?_, ?_⟩
        · rw [hC1, hB2, hAid]
        · rw [hC2]
          exact hB6
        · apply hC8
          rw [hB3, hA2, hmc]
          rfl

/-- A `handleMcert` run that starts with a usable Identity Store entry
whose provider resource already exists issues no Create call and leaves the
Identity Store untouched. -/
theorem handleMcert_stable (s : St) (key ns name ssl : String)
    (hsplit : splitMetaNamespaceKey key = .ok (ns, name))
    (hmc : (assocGet s.mcerts (ns, name)).isSome = true)
    (hid : assocGet s.idStore name = some ssl)
    (hne : ssl ≠ "")
    (hprov : (assocGet s.provider ssl).isSome = true) :
    (handleMcert s key).2.2.countP (fun e => Event.isCreate e) = 0 ∧
    (handleMcert s key).2.1.idStore = s.idStore := by
  rw [Option.isSome_iff_exists] at hmc
  obtain ⟨mcert, hmcEq⟩ := hmc
  unfold handleMcert
  rw [hsplit]
  dsimp only
  rw [hmcEq]
  dsimp only
  rw [createName_reuse s name ssl hid hne]
  dsimp only
  rcases hci : createSslCertificateIfNeeded s ssl mcert with ⟨r2, s2, ev2⟩
  have hB := createSslCertificateIfNeeded_post s ssl mcert
  rw [hci] at hB
  dsimp only at hB
  obtain ⟨hB1, hB2, hB3, hB4, hB5, hB6, hB7, hB8, hB9⟩ := hB
  cases hB1
  dsimp only
  rcases hup : updateStatus s2 mcert with ⟨r3, s3, ev3⟩
  have hC := updateStatus_post s2 mcert
  rw [hup] at hC
  dsimp only at hC
  obtain ⟨hC1, hC2, hC3, hC4, hC5, hC6, hC7, hC8⟩ := hC
  constructor
  · rw [List.countP_append, List.countP_append]
    rw [hB9 hprov, hC5]
    simp [List.countP_cons, List.countP_nil, Event.isCreate]
  · rw [hC1, hB2]

/-- Claim C1: for every ManagedCertificate key, a second run of the Mcert
reconciliation (`handleMcert`) right after a successful run, with no
intervening provider-state change, issues no provider-resource Create call
and leaves the Identity Store exactly as the first run left it.  The name
supply is assumed never to produce the empty-string identifier, as
`utils.RandomName` produces identifiers. -/
theorem mcert_reconcile_idempotent (s0 : St) (key : String)
    (hgen : ∀ i, s0.genSupply i ≠ some "")
    (h1 : (handleMcert s0 key).1 = .ok ()) :
    (handleMcert (handleMcert s0 key).2.1 key).2.2.countP (fun e => Event.isCreate e) = 0 ∧
    (handleMcert (handleMcert s0 key).2.1 key).2.1.idStore =
      (handleMcert s0 key).2.1.idStore := by
  obtain ⟨ns, name, ssl, hsplit, hid, hne, hprov, hmc⟩ := handleMcert_ok_state s0 key hgen h1
  exact handleMcert_stable (handleMcert s0 key).2.1 key ns name ssl hsplit hmc hid hne hprov

/-- A concrete ManagedCertificate used by the witnesses. -/
def w1Mcert : Mcert :=
  { ns := "ns", name := "foo", domains := ["example.com"],
    status := { certificateName := "", certificateStatus := "",
                domainStatus := none, expireTime := "" } }

/-- A concrete starting state for the idempotence witness: empty Identity
Store, empty provider, one ManagedCertificate, a supply of the constant
name "gencert". -/
def w1St : St :=
  { idStore := [], provider := [], mcerts := [(("ns", "foo"), w1Mcert)],
    genSupply := fun _ => some "gencert", genCounter := 0 }

/-- Witness for claim C1 at a concrete input. -/
theorem mcert_reconcile_idempotent_witness :
    (handleMcert w1St "ns/foo").1 = .ok () ∧
    ((handleMcert (handleMcert w1St "ns/foo").2.1 "ns/foo").2.2.countP
      (fun e => Event.isCreate e) = 0 ∧
     (handleMcert (handleMcert w1St "ns/foo").2.1 "ns/foo").2.1.idStore =
      (handleMcert w1St "ns/foo").2.1.idStore) := by
  have hgen : ∀ i, w1St.genSupply i ≠ some "" := by
    intro i h
    simp [w1St] at h
  have h1 : (handleMcert w1St "ns/foo").1 = .ok () := by decide
  exact ⟨h1, mcert_reconcile_idempotent w1St "ns/foo" hgen h1⟩

/-- When the supply yields candidates at the two indices the generator may
consult, `generateAndPut` succeeds with one of them, and its trace is one
existence probe followed by exactly the Put of the chosen name. -/
theorem generateAndPut_trace (s : St) (name n1 n2 : String)
    (hg1 : s.genSupply s.genCounter = some n1)
    (hg2 : s.genSupply (s.genCounter + 1) = some n2) :
    ∃ v, (v = n1 ∨ v = n2) ∧
      (generateAndPut s name).1 = .ok v ∧
      (generateAndPut s name).2.2 = [Event.sslGet n1, Event.storePut name v] := by
  unfold generateAndPut randomName
  rw [hg1]
  dsimp only
  cases hp : assocGet s.provider n1 with
  | none => exact ⟨n1, Or.inl rfl, rfl, rfl⟩
  | some c =>
    dsimp only
    rw [hg2]
    dsimp only
    exact ⟨n2, Or.inr rfl, rfl, rfl⟩

/-- When the Identity Store has no entry for the name, or an entry with
empty value, the name-ensuring step generates a fresh name, Puts it, and
its trace is exactly store-Get, probe, store-Put. -/
theorem createName_gen (s : St) (name n1 n2 : String)
    (hid : assocGet s.idStore name = none ∨ assocGet s.idStore name = some "")
    (hg1 : s.genSupply s.genCounter = some n1)
    (hg2 : s.genSupply (s.genCounter + 1) = some n2) :
    ∃ v s', (v = n1 ∨ v = n2) ∧
      createSslCertificateNameIfNeeded s name =
        (.ok v, s', [Event.storeGet name, Event.sslGet n1, Event.storePut name v]) := by
  obtain ⟨v, hv, hok, hev⟩ := generateAndPut_trace s name n1 n2 hg1 hg2
  refine ⟨v, (generateAndPut s name).2.1, hv, ?_⟩
  unfold createSslCertificateNameIfNeeded
  rcases hid with hid | hid
  · rw [hid]
    dsimp only
    rw [hok, hev]
  · rw [hid]
    dsimp only
    rw [if_pos rfl]
    rw [hok, hev]

/-- Claim C2: a reconciliation that starts with no Identity Store entry for
the ManagedCertificate's name (or an entry with empty value) performs
exactly one Identity Store Put, of a name freshly drawn from the supply,
and this Put happens before any provider-resource Create call of that
reconciliation. -/
theorem put_before_create (s0 : St) (key ns name : String) (m : Mcert) (n1 n2 : String)
    (hkey : splitMetaNamespaceKey key = .ok (ns, name))
    (hm : assocGet s0.mcerts (ns, name) = some m)
    (hid : assocGet s0.idStore name = none ∨ assocGet s0.idStore name = some "")
    (hg1 : s0.genSupply s0.genCounter = some n1)
    (hg2 : s0.genSupply (s0.genCounter + 1) = some n2) :
    ∃ v t1 t2,
      (handleMcert s0 key).2.2 = t1 ++ Event.storePut name v :: t2 ∧
      t1.countP (fun e => Event.isPut e) = 0 ∧
      t1.countP (fun e => Event.isCreate e) = 0 ∧
      t2.countP (fun e => Event.isPut e) = 0 ∧
      (v = n1 ∨ v = n2) := by
  unfold handleMcert
  rw [hkey]
  dsimp only
  rw [hm]
  dsimp only
  obtain ⟨v, s1, hv, hcn⟩ := createName_gen s0 name n1 n2 hid hg1 hg2
  rw [hcn]
  dsimp only
  rcases hci : createSslCertificateIfNeeded s1 v m with ⟨r2, s2, ev2⟩
  have hB := createSslCertificateIfNeeded_post s1 v m
  rw [hci] at hB
  dsimp only at hB
  obtain ⟨hB1, hB2, hB3, hB4, hB5, hB6, hB7, hB8, hB9⟩ := hB
  cases hB1
  dsimp only
  rcases hup : updateStatus s2 m with ⟨r3, s3, ev3⟩
  have hC := updateStatus_post s2 m
  rw [hup] at hC
  dsimp only at hC
  obtain ⟨hC1, hC2, hC3, hC4, hC5, hC6, hC7, hC8⟩ := hC
  refine ⟨v, [Event.storeGet name, Event.sslGet n1], ev2 ++ ev3, ?_, ?_, ?_, ?_, hv⟩
  · simp
  · simp [List.countP_cons, List.countP_nil, Event.isPut]
  · simp [List.countP_cons, List.countP_nil, Event.isCreate]
  · rw [List.countP_append, hB7, hC6]

/-- Witness for claim C2 at a concrete input. -/
theorem put_before_create_witness :
    ∃ v t1 t2,
      (handleMcert w1St "ns/foo").2.2 = t1 ++ Event.storePut "foo" v :: t2 ∧
      t1.countP (fun e => Event.isPut e) = 0 ∧
      t1.countP (fun e => Event.isCreate e) = 0 ∧
      t2.countP (fun e => Event.isPut e) = 0 ∧
      (v = "gencert" ∨ v = "gencert") := by
  exact put_before_create w1St "ns/foo" "ns" "foo" w1Mcert "gencert" "gencert"
    (by decide) (by decide) (Or.inl (by decide)) rfl rfl

/-- The overall-status codes recognized by the switch in `updateStatus`. -/
def sslCertificateStatusCodes : List String :=
  [sslActive, "", sslManagedCertificateStatusUnspecified, sslProvisioning,
   sslProvisioningFailed, sslProvisioningFailedPermanently, sslRenewalFailed]

/-- The per-domain status codes recognized by `translateDomainStatus`. -/
def sslDomainStatusCodes : List String :=
  [sslProvisioning, sslFailedNotVisible, sslFailedCaaChecking, sslFailedCaaForbidden,
   sslFailedRateLimited, sslActive]

/-- Claim C3: the status translation is exhaustive over the two closed
enumerations, each recognized code mapping to exactly the listed
user-facing string, and every value outside the enumeration yields an
error, never a default. -/
theorem status_translation_exhaustive :
    (translateCertificateStatus "ACTIVE" = .ok "Active" ∧
     translateCertificateStatus "" = .ok "" ∧
     translateCertificateStatus "MANAGED_CERTIFICATE_STATUS_UNSPECIFIED" = .ok "" ∧
     translateCertificateStatus "PROVISIONING" = .ok "Provisioning" ∧
     translateCertificateStatus "PROVISIONING_FAILED" = .ok "ProvisioningFailed" ∧
     translateCertificateStatus "PROVISIONING_FAILED_PERMANENTLY" =
       .ok "ProvisioningFailedPermanently" ∧
     translateCertificateStatus "RENEWAL_FAILED" = .ok "RenewalFailed") ∧
    (translateDomainStatus "PROVISIONING" = .ok "Provisioning" ∧
     translateDomainStatus "FAILED_NOT_VISIBLE" = .ok "FailedNotVisible" ∧
     translateDomainStatus "FAILED_CAA_CHECKING" = .ok "FailedCaaChecking" ∧
     translateDomainStatus "FAILED_CAA_FORBIDDEN" = .ok "FailedCaaForbidden" ∧
     translateDomainStatus "FAILED_RATE_LIMITED" = .ok "FailedRateLimited" ∧
     translateDomainStatus "ACTIVE" = .ok "Active") ∧
    (∀ st, st ∉ sslCertificateStatusCodes → isErr (translateCertificateStatus st) = true) ∧
    (∀ st, st ∉ sslDomainStatusCodes → isErr (translateDomainStatus st) = true) := by
  refine ⟨by decide, by decide, ?_, ?_⟩
  · intro st h
    simp only [sslCertificateStatusCodes, List.mem_cons, List.mem_singleton,
      List.not_mem_nil, or_false, not_or] at h
    obtain ⟨h1, h2, h3, h4, h5, h6, h7⟩ := h
    simp [translateCertificateStatus, isErr, h1, h2, h3, h4, h5, h6, h7]
  · intro st h
    simp only [sslDomainStatusCodes, List.mem_cons, List.mem_singleton,
      List.not_mem_nil, or_false, not_or] at h
    obtain ⟨h1, h2, h3, h4, h5, h6⟩ := h
    simp [translateDomainStatus, isErr, h1, h2, h3, h4, h5, h6]

/-- Witness for claim C3 at a concrete out-of-enumeration input. -/
theorem status_translation_exhaustive_witness :
    ("bogus" ∉ sslCertificateStatusCodes ∧ "bogus" ∉ sslDomainStatusCodes) ∧
    isErr (translateCertificateStatus "bogus") = true ∧
    isErr (translateDomainStatus "bogus") = true := by
  refine ⟨by decide, ?_, ?_⟩
  · exact status_translation_exhaustive.2.2.1 "bogus" (by decide)
  · exact status_translation_exhaustive.2.2.2 "bogus" (by decide)

/-- A provider certificate with overall status ACTIVE and no per-domain
entries. -/
def c4Cert : SslCert :=
  { name := "ssl-1", domains := ["example.com"],
    managed := { status := "ACTIVE", domainStatus := [] } }

/-- A ManagedCertificate whose status starts with a non-nil empty domain
status slice, to make the write of the nil slice observable. -/
def c4Mcert : Mcert :=
  { ns := "ns", name := "foo", domains := ["example.com"],
    status := { certificateName := "", certificateStatus := "",
                domainStatus := some [], expireTime := "" } }

/-- State for the domain-status counterexample: identity mapping and
provider resource in place, provider reports no per-domain entries. -/
def c4St : St :=
  { idStore := [("foo", "ssl-1")], provider := [("ssl-1", c4Cert)],
    mcerts := [(("ns", "foo"), c4Mcert)], genSupply := fun _ => none, genCounter := 0 }

/-- Counterexample to claim C4: with no per-domain entries the status
written onto the ManagedCertificate has `domainStatus` equal to the Go nil
slice (`none`, serialized as JSON null), which is not the non-nil empty
list (`some []`). -/
theorem empty_domain_status_nil_counterexample :
    (updateStatus c4St c4Mcert).1 = .ok () ∧
    Option.map (fun m => m.status.domainStatus)
      (assocGet (updateStatus c4St c4Mcert).2.1.mcerts ("ns", "foo")) = some none ∧
    some (none : GoSlice DomainStatus) ≠ some (some ([] : List DomainStatus)) := by
  decide

/-- Claim C4 (amended): when the fetched provider resource has no
per-domain status entries, the status written onto the ManagedCertificate
has a `domainStatus` with no entries, but as the Go nil slice (serialized
as null), not as a non-nil empty list. -/
theorem empty_domain_status_is_nil (s : St) (mcert : Mcert) (ssl cs : String) (cert : SslCert)
    (h1 : assocGet s.idStore mcert.name = some ssl)
    (h2 : assocGet s.provider ssl = some cert)
    (h3 : translateCertificateStatus cert.managed.status = .ok cs)
    (h4 : cert.managed.domainStatus = []) :
    (updateStatus s mcert).1 = .ok () ∧
    Option.map (fun m => m.status.domainStatus)
      (assocGet (updateStatus s mcert).2.1.mcerts (mcert.ns, mcert.name)) = some none := by
  unfold updateStatus
  rw [h1]
  dsimp only
  rw [h2]
  dsimp only
  rw [h3]
  dsimp only
  rw [h4]
  dsimp only [translateDomainStatuses]
  refine ⟨rfl, ?_⟩
  rw [assocGet_assocPut_self]
  rfl

/-- Witness for the amended claim C4 at a concrete input. -/
theorem empty_domain_status_is_nil_witness :
    (updateStatus c4St c4Mcert).1 = .ok () ∧
    Option.map (fun m => m.status.domainStatus)
      (assocGet (updateStatus c4St c4Mcert).2.1.mcerts (c4Mcert.ns, c4Mcert.name)) =
      some none :=
  empty_domain_status_is_nil c4St c4Mcert "ssl-1" "Active" c4Cert
    (by decide) (by decide) (by decide) rfl

/-- A provider certificate with an unrecognized overall status. -/
def c5Cert : SslCert :=
  { name := "ssl-1", domains := [],
    managed := { status := "unexpected", domainStatus := [] } }

/-- State for the unknown-status scenario. -/
def c5St : St :=
  { idStore := [("foo", "ssl-1")], provider := [("ssl-1", c5Cert)],
    mcerts := [(("ns", "foo"), c4Mcert)], genSupply := fun _ => none, genCounter := 0 }

/-- Claim C5: if the provider resource's overall status is unrecognized,
`updateStatus` returns an error, issues no Update call, and leaves the
whole state (in particular the ManagedCertificate object) unmodified. -/
theorem unknown_status_aborts (s : St) (mcert : Mcert) (ssl : String) (cert : SslCert)
    (h1 : assocGet s.idStore mcert.name = some ssl)
    (h2 : assocGet s.provider ssl = some cert)
    (h3 : isErr (translateCertificateStatus cert.managed.status) = true) :
    isErr (updateStatus s mcert).1 = true ∧
    (updateStatus s mcert).2.1 = s ∧
    (updateStatus s mcert).2.2.countP (fun e => Event.isUpdate e) = 0 := by
  unfold updateStatus
  rw [h1]
  dsimp only
  rw [h2]
  dsimp only
  cases ht : translateCertificateStatus cert.managed.status with
  | error e =>
    dsimp only
    exact ⟨rfl, rfl, by simp [List.countP_cons, List.countP_nil, Event.isUpdate]⟩
  | ok cs =>
    rw [ht] at h3
    simp [isErr] at h3

/-- Witness for claim C5 at the spec's concrete scenario (provider status
"unexpected"). -/
theorem unknown_status_aborts_witness :
    isErr (updateStatus c5St c4Mcert).1 = true ∧
    (updateStatus c5St c4Mcert).2.1 = c5St ∧
    (updateStatus c5St c4Mcert).2.2.countP (fun e => Event.isUpdate e) = 0 :=
  unknown_status_aborts c5St c4Mcert "ssl-1" c5Cert (by decide) (by decide) (by decide)

/-- The enqueues produced by the ingress lookup loop are exactly the keys
of the names that resolve in the lister; failed lookups are skipped. -/
theorem ingressLoop_enqueues (s : IngSt) (ns : String) (names : List String) :
    (ingressLoop s ns names).filterMap IngEvent.enqueueOf =
      names.filterMap (fun n => (assocGet s.mcerts (ns, n)).map (fun m => (m.ns, m.name))) := by
  induction names with
  | nil => rfl
  | cons n rest ih =>
    cases hm : assocGet s.mcerts (ns, n) with
    | none => simp [ingressLoop, IngEvent.enqueueOf, hm, ih]
    | some m => simp [ingressLoop, IngEvent.enqueueOf, hm, ih]

/-- Claim C6: for an Ingress whose annotation lists several
ManagedCertificate names, failure to resolve one name does not abort the
reconciliation: `handleIngress` returns success and enqueues exactly the
names that do resolve. -/
theorem ingress_partial_failure (s : IngSt) (key ns iname v : String) (ing : Ingress)
    (h1 : splitMetaNamespaceKey key = .ok (ns, iname))
    (h2 : assocGet s.ingresses (ns, iname) = some ing)
    (h3 : assocGet ing.annotations annotationKey = some v) :
    (handleIngress s key).1 = .ok () ∧
    (handleIngress s key).2.filterMap IngEvent.enqueueOf =
      (parseAnnotationNames v).filterMap
        (fun n => (assocGet s.mcerts (ns, n)).map (fun m => (m.ns, m.name))) := by
  unfold handleIngress
  rw [h1]
  dsimp only
  rw [h2]
  dsimp only
  rw [h3]
  dsimp only
  exact ⟨rfl, ingressLoop_enqueues s ns _⟩

/-- The Ingress of the partial-failure witness, listing names "a,b". -/
def w6Ing : Ingress := { annotations := [(annotationKey, "a,b")] }

/-- ManagedCertificate "a" for the partial-failure witness; "b" does not
exist. -/
def w6McertA : Mcert :=
  { ns := "ns", name := "a", domains := [],
    status := { certificateName := "", certificateStatus := "",
                domainStatus := none, expireTime := "" } }

/-- State for the partial-failure witness. -/
def w6St : IngSt :=
  { ingresses := [(("ns", "ing1"), w6Ing)], mcerts := [(("ns", "a"), w6McertA)] }

/-- Witness for claim C6: annotation "a,b" where "b" fails to resolve still
enqueues "a" and succeeds. -/
theorem ingress_partial_failure_witness :
    ((handleIngress w6St "ns/ing1").1 = .ok () ∧
     (handleIngress w6St "ns/ing1").2.filterMap IngEvent.enqueueOf =
       (parseAnnotationNames "a,b").filterMap
         (fun n => (assocGet w6St.mcerts ("ns", n)).map (fun m => (m.ns, m.name)))) ∧
    (parseAnnotationNames "a,b").filterMap
      (fun n => (assocGet w6St.mcerts ("ns", n)).map (fun m => (m.ns, m.name))) =
      [("ns", "a")] := by
  refine ⟨ingress_partial_failure w6St "ns/ing1" "ns" "ing1" "a,b" w6Ing
    (by decide) (by decide) (by decide), ?_⟩
  decide

/-- Empty ingress-side state for the malformed-item scenario. -/
def c7IngSt : IngSt := { ingresses := [], mcerts := [] }

/-- Empty Mcert-side state for the malformed-item scenario. -/
def c7St : St :=
  { idStore := [], provider := [], mcerts := [], genSupply := fun _ => none, genCounter := 0 }

/-- Claim C7 evaluated at the failing input: the Mcert worker's
`processNext`, handed a non-string item, does NOT stop after `Forget` — it
runs `handleMcert` on the zero-value key "" and, that failing, calls
`AddRateLimited`, re-enqueueing the malformed item; the Ingress worker's
`processNextIngress` by contrast forgets the item immediately and never
re-enqueues it. -/
theorem nonstring_item_requeued :
    (processNext c7St QObj.nonStr).2 =
      [QEvent.forget, QEvent.addRateLimited, QEvent.forget, QEvent.done] ∧
    QEvent.addRateLimited ∈ (processNext c7St QObj.nonStr).2 ∧
    processNextIngress c7IngSt QObj.nonStr = [QEvent.forget, QEvent.done] ∧
    QEvent.addRateLimited ∉ processNextIngress c7IngSt QObj.nonStr := by
  decide

/-- Claim C8: `randomName` draws one candidate and probes the provider for
it exactly once; on a collision it draws exactly one replacement and
returns it without probing it for a second collision; an error arises only
when a draw from the supply itself fails. -/
theorem random_name_single_retry (s : St) (n1 n2 : String)
    (hg1 : s.genSupply s.genCounter = some n1)
    (hg2 : s.genSupply (s.genCounter + 1) = some n2) :
    (randomName s).2.2 = [Event.sslGet n1] ∧
    ((assocGet s.provider n1).isSome = false → (randomName s).1 = .ok n1) ∧
    ((assocGet s.provider n1).isSome = true → (randomName s).1 = .ok n2) ∧
    (∀ s' : St, isErr (randomName s').1 = true →
      s'.genSupply s'.genCounter = none ∨ s'.genSupply (s'.genCounter + 1) = none) := by
  have herr : ∀ s' : St, isErr (randomName s').1 = true →
      s'.genSupply s'.genCounter = none ∨ s'.genSupply (s'.genCounter + 1) = none := by
    intro s' h
    unfold randomName at h
    cases hg : s'.genSupply s'.genCounter with
    | none => exact Or.inl rfl
    | some m1 =>
      rw [hg] at h
      dsimp only at h
      cases hp : assocGet s'.provider m1 with
      | none =>
        rw [hp] at h
        dsimp only at h
        simp [isErr] at h
      | some c =>
        rw [hp] at h
        dsimp only at h
        cases hg2' : s'.genSupply (s'.genCounter + 1) with
        | none => exact Or.inr rfl
        | some m2 =>
          rw [hg2'] at h
          dsimp only at h
          simp [isErr] at h
  unfold randomName
  rw [hg1]
  dsimp only
  cases hp : assocGet s.provider n1 with
  | none =>
    dsimp only
    refine ⟨rfl, fun _ => rfl, ?_, herr⟩
    intro h
    simp at h
  | some c =>
    dsimp only
    rw [hg2]
    dsimp only
    refine ⟨rfl, ?_, fun _ => rfl, herr⟩
    intro h
    simp at h

/-- An existing provider certificate named "n1", colliding with the first
candidate of the witness supply. -/
def w8Cert : SslCert :=
  { name := "n1", domains := [], managed := { status := "ACTIVE", domainStatus := [] } }

/-- State for the name-generator witness: the supply yields "n1" then
"n2", and "n1" already exists at the provider. -/
def w8St : St :=
  { idStore := [], provider := [("n1", w8Cert)], mcerts := [],
    genSupply := fun i => if i = 0 then some "n1" else some "n2", genCounter := 0 }

/-- Witness for claim C8: on a collision the single replacement candidate
is returned without a second probe. -/
theorem random_name_single_retry_witness :
    ((randomName w8St).2.2 = [Event.sslGet "n1"] ∧
     ((assocGet w8St.provider "n1").isSome = false → (randomName w8St).1 = .ok "n1") ∧
     ((assocGet w8St.provider "n1").isSome = true → (randomName w8St).1 = .ok "n2") ∧
     (∀ s' : St, isErr (randomName s').1 = true →
       s'.genSupply s'.genCounter = none ∨ s'.genSupply (s'.genCounter + 1) = none)) ∧
    (randomName w8St).1 = .ok "n2" := by
  refine ⟨random_name_single_retry w8St "n1" "n2" (by decide) (by decide), ?_⟩
  decide

/-- In the Kubernetes object model a lister entry at (namespace, name) has
`ObjectMeta.Name` equal to the key's name part; for an association-list
lister this invariant follows from a decidable scan. -/
theorem listerWF_of_all (l : List ((String × String) × Mcert))
    (hall : (l.all (fun p => p.2.name == p.1.2)) = true) :
    ∀ a b m, assocGet l (a, b) = some m → m.name = b := by
  induction l with
  | nil =>
    intro a b m hm
    simp [assocGet] at hm
  | cons p rest ih =>
    obtain ⟨⟨k1, k2⟩, v⟩ := p
    simp only [List.all_cons, Bool.and_eq_true] at hall
    obtain ⟨hv, hrest⟩ := hall
    intro a b m hm
    unfold assocGet at hm
    by_cases hk : (k1, k2) = (a, b)
    · rw [if_pos hk] at hm
      cases hm
      injection hk with e1 e2
      subst e2
      exact beq_iff_eq.mp hv
    · rw [if_neg hk] at hm
      exact ih hrest a b m hm

/-- All Identity Store operations of one `handleMcert` run are keyed by the
name part of the reconciled key, never by the namespace. -/
theorem handleMcert_store_keys (s : St) (key ns name : String)
    (hwf : ∀ a b m, assocGet s.mcerts (a, b) = some m → m.name = b)
    (hk : splitMetaNamespaceKey key = .ok (ns, name)) :
    ((handleMcert s key).2.2.all (fun e => Event.storeKeyMatches e name)) = true := by
  unfold handleMcert
  rw [hk]
  dsimp only
  cases hmc : assocGet s.mcerts (ns, name) with
  | none => rfl
  | some mcert =>
    dsimp only
    have hname : mcert.name = name := hwf ns name mcert hmc
    rcases hcn : createSslCertificateNameIfNeeded s name with ⟨res1, s1, ev1⟩
    have hA := createName_post s name
    rw [hcn] at hA
    dsimp only at hA
    obtain ⟨hA1, hA2, hA3, hA4, hA5, hA6⟩ := hA
    cases res1 with
    | error e =>
      dsimp only
      exact hA5
    | ok ssl =>
      dsimp only
      rcases hci : createSslCertificateIfNeeded s1 ssl mcert with ⟨res2, s2, ev2⟩
      have hB := createSslCertificateIfNeeded_post s1 ssl mcert
      rw [hci] at hB
      dsimp only at hB
      obtain ⟨hB1, hB2, hB3, hB4, hB5, hB6, hB7, hB8, hB9⟩ := hB
      cases hB1
      dsimp only
      rcases hup : updateStatus s2 mcert with ⟨r3, s3, ev3⟩
      have hC := updateStatus_post s2 mcert
      rw [hup] at hC
      dsimp only at hC
      obtain ⟨hC1, hC2, hC3, hC4, hC5, hC6, hC7, hC8⟩ := hC
      rw [hname] at hC7
      simp only [List.all_append, Bool.and_eq_true]
      exact ⟨⟨hA5, hB8 name⟩, hC7⟩

/-- Claim C9: the Identity Store is keyed by the ManagedCertificate's name
alone, without its namespace: reconciling two keys that share a name but
differ in namespace drives every Identity Store operation of both runs
through that same name, so both share one mapping and hence one provider
certificate name. -/
theorem store_keyed_by_name_only (s : St) (key1 key2 ns1 ns2 n : String)
    (hwf : ∀ a b m, assocGet s.mcerts (a, b) = some m → m.name = b)
    (h1 : splitMetaNamespaceKey key1 = .ok (ns1, n))
    (h2 : splitMetaNamespaceKey key2 = .ok (ns2, n)) :
    ((handleMcert s key1).2.2.all (fun e => Event.storeKeyMatches e n)) = true ∧
    ((handleMcert s key2).2.2.all (fun e => Event.storeKeyMatches e n)) = true :=
  ⟨handleMcert_store_keys s key1 ns1 n hwf h1, handleMcert_store_keys s key2 ns2 n hwf h2⟩

/-- ManagedCertificate "foo" in namespace "ns1". -/
def w9McertA : Mcert :=
  { ns := "ns1", name := "foo", domains := [],
    status := { certificateName := "", certificateStatus := "",
                domainStatus := none, expireTime := "" } }

/-- ManagedCertificate "foo" in namespace "ns2". -/
def w9McertB : Mcert :=
  { ns := "ns2", name := "foo", domains := [],
    status := { certificateName := "", certificateStatus := "",
                domainStatus := none, expireTime := "" } }

/-- State with two same-named ManagedCertificates in different
namespaces. -/
def w9St : St :=
  { idStore := [], provider := [],
    mcerts := [(("ns1", "foo"), w9McertA), (("ns2", "foo"), w9McertB)],
    genSupply := fun _ => some "g", genCounter := 0 }

/-- Witness for claim C9 at a concrete two-namespace input. -/
theorem store_keyed_by_name_only_witness :
    ((handleMcert w9St "ns1/foo").2.2.all (fun e => Event.storeKeyMatches e "foo")) = true ∧
    ((handleMcert w9St "ns2/foo").2.2.all (fun e => Event.storeKeyMatches e "foo")) = true :=
  store_keyed_by_name_only w9St "ns1/foo" "ns2/foo" "ns1" "ns2" "foo"
    (listerWF_of_all w9St.mcerts (by decide)) (by decide) (by decide)

/-- Ingress with a trailing-separator annotation value "a,". -/
def w10Ing : Ingress := { annotations := [(annotationKey, "a,")] }

/-- State for the no-trimming scenario: no ManagedCertificates exist. -/
def w10St : IngSt := { ingresses := [(("ns", "ing1"), w10Ing)], mcerts := [] }

/-- Claim C10: `parseAnnotation` performs no trimming and no filtering of
empty segments — "a," yields ["a", ""] and "a,,b" yields ["a", "", "b"] —
and `handleIngress` then attempts a ManagedCertificate lookup for the
empty name. -/
theorem annotation_no_trimming :
    parseAnnotationNames "a," = ["a", ""] ∧
    parseAnnotationNames "a,,b" = ["a", "", "b"] ∧
    IngEvent.lookup "ns" "" ∈ (handleIngress w10St "ns/ing1").2 := by
  decide
